import Mathlib

/-!
Verification of the chat message synchronization engine.

Shallow embedding of the client-side message synchronization subsystem of the
`datarobot-storage` repository:

* the query-cache message list and its two merge paths
  (`src/frontend_web/src/hooks/useChatStream.ts`, SSE `message` handler, and
  `src/frontend_web/src/api/chat/hooks.ts`, `usePostMessage.onSuccess`);
* the SSE event dispatch (`eventSource.onmessage`);
* the stream failure / fallback state machine of `useChatStream`
  (`onopen`, `onerror`, the cool-down timer callback, and the chat-switch
  reset effect), together with the polling gate of `pages/Chat.tsx`;
* the submit pipeline of `usePostMessage` (mutation lifecycle: `mutationFn`,
  `onSuccess`, `onError`; the hook declares no `onMutate`).
-/

namespace ChatSync

/-- Wire shape of a chat message
(`{uuid, role, content, chat_id, in_progress, created_at?}`,
`src/frontend_web/src/api/chat/types` / spec §6). -/
structure ChatMessage where
  uuid : String
  role : String
  content : String
  chat_id : String
  in_progress : Bool
  created_at : Option String := none
deriving DecidableEq

/-- `Array.prototype.findIndex`, returning `some i` for the first index whose
element satisfies `p` and `none` when no element does (TS returns `-1`). -/
def findIndex (p : α → Bool) : List α → Option Nat
  | [] => none
  | a :: t => if p a then some 0 else (findIndex p t).map (· + 1)

/-- SSE `message`-event merge
(`useChatStream.ts` lines 104–119): find the entry with the same `uuid`;
if found, replace it in place (unconditionally); otherwise append. -/
def sseUpsert (old : List ChatMessage) (nextMessage : ChatMessage) :
    List ChatMessage :=
  match findIndex (fun msg => msg.uuid == nextMessage.uuid) old with
  | some existingIndex => old.set existingIndex nextMessage
  | none => old ++ [nextMessage]

/-- One step of the REST post-message merge
(`api/chat/hooks.ts`, `usePostMessage.onSuccess`, lines 95–112): skip the
message when its `chat_id` differs from the mutation's `chatId`; otherwise
find the entry with the same `uuid`; if the existing entry is finalized
(`in_progress = false`) and the incoming one is still in progress, leave the
store untouched; otherwise replace in place; if no entry matches, append. -/
def restMergeOne (chatId : String) (next : List ChatMessage)
    (message : ChatMessage) : List ChatMessage :=
  if chatId ≠ message.chat_id then next
  else
    match findIndex (fun existing => existing.uuid == message.uuid) next with
    | some existingIndex =>
      match next[existingIndex]? with
      | some existing =>
        if existing.in_progress = false ∧ message.in_progress = true then next
        else next.set existingIndex message
      | none => next
    | none => next ++ [message]

/-- The whole `data.forEach(...)` loop of `usePostMessage.onSuccess`: the REST
response's messages are folded into the cached list one at a time. -/
def restMergeAll (chatId : String) (oldData : List ChatMessage)
    (data : List ChatMessage) : List ChatMessage :=
  data.foldl (restMergeOne chatId) oldData

/-- Result of `JSON.parse`-ing one SSE event's `data` and reading its `type`
(`useChatStream.ts` lines 87–130).  `snapshot none` models a `snapshot` event
whose `data` fails the `Array.isArray` check; `message none` models a
`message` event whose `data` field is absent/falsy; `other` carries an
unrecognized `type` string. -/
inductive StreamEventKind where
  | snapshot (data : Option (List ChatMessage))
  | message (data : Option ChatMessage)
  | heartbeat (timestamp : String)
  | other (eventType : String)
deriving DecidableEq

/-- The `switch (streamEvent.type)` dispatch of `eventSource.onmessage`:
a well-formed `snapshot` replaces the whole cached list, a well-formed
`message` goes through `sseUpsert`, and `heartbeat` and unknown types leave
the cache untouched. -/
def applyStreamEvent (store : List ChatMessage) (ev : StreamEventKind) :
    List ChatMessage :=
  match ev with
  | .snapshot (some data) => data
  | .snapshot none => store
  | .message (some m) => sseUpsert store m
  | .message none => store
  | .heartbeat _ => store
  | .other _ => store

/-- Per-conversation state of the `useChatStream` hook:
`chatId` is the hook's prop; `generation` identifies the current `EventSource`
instance (bumped each time a new one is constructed); `connOpen` says whether
that instance is still open; `failureCount` is `failureCountRef.current`;
`fallbackActive` is the `isPollingFallbackActive` React state; and
`pendingTimers` counts the live cool-down timers (`retryTimeoutRef` holds at
most one handle). -/
structure StreamHookState where
  chatId : String
  generation : Nat
  connOpen : Bool
  failureCount : Nat
  fallbackActive : Bool
  pendingTimers : Nat
deriving DecidableEq

/-- SSE failure threshold (`MAX_CONSECUTIVE_FAILURES`, `useChatStream.ts`). -/
def MAX_CONSECUTIVE_FAILURES : Nat := 3

/-- Cool-down before retrying SSE (`POLLING_BACKOFF_MS`, `useChatStream.ts`). -/
def POLLING_BACKOFF_MS : Nat := 30000

/-- Polling gate of `pages/Chat.tsx` line 24:
`shouldRefetch: isPollingFallbackActive ? 5000 : undefined` — REST polling of
the message list runs at a 5000 ms interval exactly while the fallback flag
is set. -/
def shouldRefetch (isPollingFallbackActive : Bool) : Option Nat :=
  if isPollingFallbackActive then some 5000 else none

/-- The `eventSource.onopen` handler (`useChatStream.ts` lines 63–66):
reset the failure counter and clear the fallback flag. -/
def onOpen (s : StreamHookState) : StreamHookState :=
  { s with failureCount := 0, fallbackActive := false }

/-- The `eventSource.onerror` handler (`useChatStream.ts` lines 68–83):
increment the failure counter; once it reaches the threshold, activate the
polling fallback, close the connection, and — only if no cool-down timer is
already pending (`if (!retryTimeoutRef.current)`) — schedule one. -/
def onError (s : StreamHookState) : StreamHookState :=
  let fc := s.failureCount + 1
  if MAX_CONSECUTIVE_FAILURES ≤ fc then
    { s with
      failureCount := fc
      fallbackActive := true
      connOpen := false
      pendingTimers :=
        if s.pendingTimers = 0 then s.pendingTimers + 1 else s.pendingTimers }
  else { s with failureCount := fc }

/-- The cool-down timer callback (`useChatStream.ts` lines 76–80): the fired
timer clears its handle, resets the failure counter and clears the fallback
flag; when the flag actually changes (`true → false`) the stream effect
re-runs and constructs a fresh `EventSource` (new generation, open). -/
def onCooldown (s : StreamHookState) : StreamHookState :=
  if s.pendingTimers ≠ 0 then
    if s.fallbackActive then
      { s with
        pendingTimers := s.pendingTimers - 1
        failureCount := 0
        fallbackActive := false
        generation := s.generation + 1
        connOpen := true }
    else { s with pendingTimers := s.pendingTimers - 1, failureCount := 0 }
  else s

/-- Changing the hook's `chatId` prop (`useChatStream.ts`): the reset effect
(lines 33–40) zeroes the failure counter, clears the fallback flag and clears
any pending cool-down timer; the stream effect's cleanup (lines 137–139)
closes the old `EventSource`, and the re-run effect opens a new one for the
new chat.  The second component counts the `close()` calls issued to the old
live connection during the switch. -/
def switchChat (s : StreamHookState) (newChatId : String) :
    StreamHookState × Nat :=
  (⟨newChatId, s.generation + 1, true, 0, false, 0⟩,
    if s.connOpen then 1 else 0)

/-- Events delivered to the hook.  `failed g` / `connected g` carry the
generation of the `EventSource` instance that fired them. -/
inductive StreamEv where
  | failed (g : Nat)
  | connected (g : Nat)
  | cooldown
deriving DecidableEq

/-- Event delivery: a browser `EventSource` dispatches callbacks only while
its connection exists and is not closed, so `failed`/`connected` events reach
the handlers only when they come from the currently open instance; the
cool-down timer fires independently. -/
def deliver (s : StreamHookState) (e : StreamEv) : StreamHookState :=
  match e with
  | .failed g => if s.connOpen = true ∧ g = s.generation then onError s else s
  | .connected g =>
    if s.connOpen = true ∧ g = s.generation then onOpen s else s
  | .cooldown => onCooldown s

/-- Hook state for a freshly connected stream of conversation `cid`:
connection open, zero failures, no fallback, no pending timer. -/
def initState (cid : String) : StreamHookState :=
  ⟨cid, 0, true, 0, false, 0⟩

/-- `n` raw invocations of the `onerror` handler on one connection, exactly as
the repository's `useChatStream` test drives the mock `EventSource`. -/
def applyFailures (s : StreamHookState) : Nat → StreamHookState
  | 0 => s
  | n + 1 => onError (applyFailures s n)

/-- The per-conversation stream invariant claimed by the spec (§3,
StreamState): at most one cool-down timer is pending, and whenever the
polling fallback is active no live connection is open. -/
def streamInv (s : StreamHookState) : Prop :=
  s.pendingTimers ≤ 1 ∧ (s.fallbackActive = true → s.connOpen = false)

instance (s : StreamHookState) : Decidable (streamInv s) := by
  unfold streamInv; infer_instance

/-- The `onmessage` handler acting on the full hook state and the cached
list: the handler body (`useChatStream.ts` lines 85–135) only reads/writes
the query cache inside a `try`/`catch`; a JSON parse failure (`parsed =
none`) is caught, logged, and leaves the cache untouched; the handler never
touches the failure counter, the fallback flag, the timer, or the
connection. -/
def onMessage (s : StreamHookState) (store : List ChatMessage)
    (parsed : Option StreamEventKind) : StreamHookState × List ChatMessage :=
  match parsed with
  | some ev => (s, applyStreamEvent store ev)
  | none => (s, store)

/-- The mutation context type of `usePostMessage`
(`IPostMessageContext`): a saved message-list snapshot and its query key. -/
structure PostMessageContext where
  previousMessages : List ChatMessage
  messagesKey : String

/-- The context `usePostMessage`'s lifecycle hands to `onError`: the hook
declares `mutationFn`, `onError` and `onSuccess` but no `onMutate`
(`api/chat/hooks.ts` lines 58–123), so no context is ever produced. -/
def postMessageContext : Option PostMessageContext := none

/-- `usePostMessage.onError` (lines 84–90): restore the saved snapshot when
the context carries one, else leave the cached list as-is (the toast is a
side effect outside the store). -/
def postMessageOnError (ctx : Option PostMessageContext)
    (store : List ChatMessage) : List ChatMessage :=
  match ctx with
  | some c => c.previousMessages
  | none => store

/-- Outcome of the REST `POST /v1/chat/{chatId}/messages` call. -/
inductive RestOutcome where
  | ok (data : List ChatMessage)
  | fail

/-- Observable result of one `submit` through `usePostMessage`:
the cached list while the request is in flight, the cached list after the
mutation settles, and whether an error was surfaced (toast + rejected
promise). -/
structure SubmitResult where
  storeDuringRequest : List ChatMessage
  storeAfterSettle : List ChatMessage
  errorShown : Bool
deriving DecidableEq

/-- One run of `submit(content)` (`use-chat-session.ts handleSubmit` →
`usePostMessage`): `mutate` runs `mutationFn`; with no `onMutate` declared
the cache is untouched until the response settles; `onSuccess` folds the
returned messages in via `restMergeAll`; `onError` runs with the absent
context and surfaces the error. -/
def submitMessage (chatId : String) (store : List ChatMessage)
    (outcome : RestOutcome) : SubmitResult :=
  let storeDuringRequest := store
  match outcome with
  | .ok data =>
    ⟨storeDuringRequest, restMergeAll chatId store data, false⟩
  | .fail =>
    ⟨storeDuringRequest, postMessageOnError postMessageContext store, true⟩

theorem findIndex_eq_none_iff (p : α → Bool) (l : List α) :
    findIndex p l = none ↔ ∀ x ∈ l, p x = false := by
  induction l with
  | nil => simp [findIndex]
  | cons a t ih =>
    by_cases h : p a = true
    · simp [findIndex, h]
    · simp only [findIndex, if_neg h, Option.map_eq_none', ih,
        List.mem_cons, Bool.not_eq_true] at *
      constructor
      · rintro hall x (rfl | hx)
        · exact Bool.not_eq_true _ ▸ (by simpa using h)
        · exact hall x hx
      · intro hall x hx
        exact hall x (Or.inr hx)

theorem findIndex_some_getElem? (p : α → Bool) (l : List α) (i : Nat)
    (h : findIndex p l = some i) : ∃ x, l[i]? = some x ∧ p x = true := by
  induction l generalizing i with
  | nil => simp [findIndex] at h
  | cons a t ih =>
    by_cases ha : p a = true
    · simp only [findIndex, if_pos ha, Option.some.injEq] at h
      subst h
      exact ⟨a, by simp, ha⟩
    · simp only [findIndex, if_neg ha, Option.map_eq_some'] at h
      obtain ⟨j, hj, rfl⟩ := h
      obtain ⟨x, hx, hpx⟩ := ih j hj
      exact ⟨x, by simpa using hx, hpx⟩

theorem findIndex_set_self (p : α → Bool) (l : List α) (i : Nat) (m : α)
    (h : findIndex p l = some i) (hm : p m = true) :
    findIndex p (l.set i m) = some i := by
  induction l generalizing i with
  | nil => simp [findIndex] at h
  | cons a t ih =>
    by_cases ha : p a = true
    · simp only [findIndex, if_pos ha, Option.some.injEq] at h
      subst h
      simp [findIndex, hm]
    · simp only [findIndex, if_neg ha, Option.map_eq_some'] at h
      obtain ⟨j, hj, rfl⟩ := h
      simp [findIndex, ha, ih j hj]

theorem findIndex_concat_of_none (p : α → Bool) (l : List α) (m : α)
    (h : findIndex p l = none) (hm : p m = true) :
    findIndex p (l ++ [m]) = some l.length := by
  induction l with
  | nil => simp [findIndex, hm]
  | cons a t ih =>
    by_cases ha : p a = true
    · simp [findIndex, ha] at h
    · simp only [findIndex, if_neg ha, Option.map_eq_none'] at h
      simp [findIndex, ha, ih h]

theorem set_getElem?_self (l : List α) (i : Nat) (a : α)
    (h : l[i]? = some a) : l.set i a = l := by
  induction l generalizing i with
  | nil => simp at h
  | cons b t ih =>
    cases i with
    | zero => simp_all
    | succ j =>
      simp only [List.getElem?_cons_succ] at h
      simp [ih j h]

theorem getElem?_set_self (l : List α) (i : Nat) (a : α) (h : i < l.length) :
    (l.set i a)[i]? = some a := by
  induction l generalizing i with
  | nil => simp at h
  | cons b t ih =>
    cases i with
    | zero => simp
    | succ j =>
      simp only [List.length_cons, Nat.succ_lt_succ_iff] at h
      simpa using ih j h

theorem countP_set_getElem? (q : α → Bool) (l : List α) (i : Nat) (m x : α)
    (hx : l[i]? = some x) :
    List.countP q (l.set i m) + (if q x then 1 else 0)
      = List.countP q l + (if q m then 1 else 0) := by
  induction l generalizing i with
  | nil => simp at hx
  | cons a t ih =>
    cases i with
    | zero =>
      simp only [List.getElem?_cons_zero, Option.some.injEq] at hx
      subst hx
      simp only [List.set_cons_zero, List.countP_cons]
      omega
    | succ j =>
      simp only [List.getElem?_cons_succ] at hx
      simp only [List.set_cons_succ, List.countP_cons]
      have := ih j hx
      omega

theorem lt_of_getElem?_eq_some (l : List α) (i : Nat) (a : α)
    (h : l[i]? = some a) : i < l.length := by
  induction l generalizing i with
  | nil => simp at h
  | cons b t ih =>
    cases i with
    | zero => simp
    | succ j =>
      simp only [List.getElem?_cons_succ] at h
      have := ih j h
      simp only [List.length_cons]
      omega

theorem not_final_and_in_progress (m : ChatMessage) :
    ¬(m.in_progress = false ∧ m.in_progress = true) := by
  rintro ⟨hf, ht⟩
  rw [hf] at ht
  exact Bool.false_ne_true ht

theorem sseUpsert_idem (s : List ChatMessage) (m : ChatMessage) :
    sseUpsert (sseUpsert s m) m = sseUpsert s m := by
  cases hfi : findIndex (fun msg => msg.uuid == m.uuid) s with
  | some i =>
    have h1 : sseUpsert s m = s.set i m := by simp [sseUpsert, hfi]
    have h2 : findIndex (fun msg => msg.uuid == m.uuid) (s.set i m) = some i :=
      findIndex_set_self _ s i m hfi (by simp)
    rw [h1]
    simp [sseUpsert, h2, List.set_set]
  | none =>
    have h1 : sseUpsert s m = s ++ [m] := by simp [sseUpsert, hfi]
    have h2 : findIndex (fun msg => msg.uuid == m.uuid) (s ++ [m])
        = some s.length :=
      findIndex_concat_of_none _ s m hfi (by simp)
    rw [h1]
    simp only [sseUpsert, h2]
    exact set_getElem?_self _ _ _ (List.getElem?_concat_length s m)

theorem restMergeOne_idem (c : String) (s : List ChatMessage)
    (m : ChatMessage) : restMergeOne c (restMergeOne c s m) m
      = restMergeOne c s m := by
  by_cases hc : c ≠ m.chat_id
  · have h1 : restMergeOne c s m = s := by simp [restMergeOne, hc]
    rw [h1, h1]
  · cases hfi : findIndex (fun existing => existing.uuid == m.uuid) s with
    | some i =>
      cases hg : s[i]? with
      | some existing =>
        by_cases hguard : existing.in_progress = false ∧ m.in_progress = true
        · have h1 : restMergeOne c s m = s := by
            simp [restMergeOne, hc, hfi, hg, hguard.1, hguard.2]
          rw [h1, h1]
        · have h1 : restMergeOne c s m = s.set i m := by
            simp [restMergeOne, hc, hfi, hg, hguard]
          have h2 : findIndex (fun existing => existing.uuid == m.uuid)
              (s.set i m) = some i :=
            findIndex_set_self _ s i m hfi (by simp)
          have hi : i < s.length := lt_of_getElem?_eq_some s i existing hg
          have h3 : (s.set i m)[i]? = some m := getElem?_set_self s i m hi
          rw [h1]
          simp [restMergeOne, hc, h2, h3, not_final_and_in_progress m,
            List.set_set]
      | none =>
        have h1 : restMergeOne c s m = s := by
          simp [restMergeOne, hc, hfi, hg]
        rw [h1, h1]
    | none =>
      have h1 : restMergeOne c s m = s ++ [m] := by
        simp [restMergeOne, hc, hfi]
      have h2 : findIndex (fun existing => existing.uuid == m.uuid)
          (s ++ [m]) = some s.length :=
        findIndex_concat_of_none _ s m hfi (by simp)
      have h3 : (s ++ [m])[s.length]? = some m :=
        List.getElem?_concat_length s m
      rw [h1]
      have h4 : restMergeOne c (s ++ [m]) m = (s ++ [m]).set s.length m := by
        simp [restMergeOne, hc, h2, h3, not_final_and_in_progress m]
      rw [h4]
      exact set_getElem?_self _ _ _ h3

theorem mem_restMergeOne (c : String) (acc : List ChatMessage)
    (m x : ChatMessage) (hx : x ∈ restMergeOne c acc m) :
    x ∈ acc ∨ (x = m ∧ m.chat_id = c) := by
  by_cases hc : c ≠ m.chat_id
  · rw [show restMergeOne c acc m = acc from by simp [restMergeOne, hc]] at hx
    exact Or.inl hx
  · push_neg at hc
    cases hfi : findIndex (fun existing => existing.uuid == m.uuid) acc with
    | some i =>
      cases hg : acc[i]? with
      | some existing =>
        by_cases hguard : existing.in_progress = false ∧ m.in_progress = true
        · rw [show restMergeOne c acc m = acc from by
            simp [restMergeOne, hc, hfi, hg, hguard.1, hguard.2]] at hx
          exact Or.inl hx
        · rw [show restMergeOne c acc m = acc.set i m from by
            simp [restMergeOne, hc, hfi, hg, hguard]] at hx
          rcases List.mem_or_eq_of_mem_set hx with h | h
          · exact Or.inl h
          · exact Or.inr ⟨h, hc.symm⟩
      | none =>
        rw [show restMergeOne c acc m = acc from by
          simp [restMergeOne, hc, hfi, hg]] at hx
        exact Or.inl hx
    | none =>
      rw [show restMergeOne c acc m = acc ++ [m] from by
        simp [restMergeOne, hc, hfi]] at hx
      rcases List.mem_append.mp hx with h | h
      · exact Or.inl h
      · exact Or.inr ⟨List.mem_singleton.mp h, hc.symm⟩

theorem mem_restMergeAll (c : String) (data : List ChatMessage) :
    ∀ (s : List ChatMessage) (x : ChatMessage),
      x ∈ restMergeAll c s data → x ∈ s ∨ x.chat_id = c := by
  induction data with
  | nil =>
    intro s x hx
    exact Or.inl (by simpa [restMergeAll] using hx)
  | cons d t ih =>
    intro s x hx
    simp only [restMergeAll, List.foldl_cons] at hx
    rcases ih (restMergeOne c s d) x hx with h | h
    · rcases mem_restMergeOne c s d x h with h2 | ⟨rfl, h3⟩
      · exact Or.inl h2
      · exact Or.inr h3
    · exact Or.inr h

theorem length_le_restMergeOne (c : String) (acc : List ChatMessage)
    (m : ChatMessage) : acc.length ≤ (restMergeOne c acc m).length := by
  unfold restMergeOne
  split
  · exact Nat.le_refl _
  · split
    · split
      · split
        · exact Nat.le_refl _
        · simp [List.length_set]
      · exact Nat.le_refl _
    · simp

theorem length_le_restMergeAll (c : String) (data : List ChatMessage) :
    ∀ acc : List ChatMessage, acc.length ≤ (restMergeAll c acc data).length := by
  induction data with
  | nil => intro acc; simp [restMergeAll]
  | cons d t ih =>
    intro acc
    calc acc.length ≤ (restMergeOne c acc d).length :=
          length_le_restMergeOne c acc d
      _ ≤ (restMergeAll c (restMergeOne c acc d) t).length :=
          ih (restMergeOne c acc d)
      _ = (restMergeAll c acc (d :: t)).length := by
          simp [restMergeAll, List.foldl_cons]

/-- A finalized assistant message, as in the spec §8 scenario. -/
def storedFinal : ChatMessage :=
  ⟨"a1", "assistant", "Real-time response!", "c1", false, none⟩

/-- A late-arriving, still in-progress version of the same message. -/
def staleInProgress : ChatMessage :=
  ⟨"a1", "assistant", "Typing", "c1", true, none⟩

/-- A message belonging to a different conversation. -/
def otherChatMsg : ChatMessage :=
  ⟨"u9", "user", "hi", "c2", false, none⟩

/-- Claim C1, counterexample: the claim quantifies over *every* upsert path,
but the SSE `message` handler (`useChatStream.ts` lines 106–118) replaces an
existing entry unconditionally — there is no `in_progress` guard on that
path.  A stored finalized entry is overwritten by an incoming in-progress
entry with the same id, so the stored entry does not stay unchanged. -/
theorem C1_counterexample :
    sseUpsert [storedFinal] staleInProgress ≠ [storedFinal] := by decide

/-- Claim C1, amended: the no-regression invariant holds on the REST
post-message merge path only (`usePostMessage.onSuccess`): if the entry found
for the incoming message's `uuid` is finalized (`in_progress = false`) and
the incoming message is still in progress, the merge leaves the store
unchanged.  On the SSE `message` path the incoming message always replaces
the stored entry. -/
theorem C1_rest_no_regression (c : String) (s : List ChatMessage) (i : Nat)
    (stored incoming : ChatMessage)
    (hfi : findIndex (fun existing => existing.uuid == incoming.uuid) s
      = some i)
    (hg : s[i]? = some stored)
    (hstored : stored.in_progress = false)
    (hincoming : incoming.in_progress = true) :
    restMergeOne c s incoming = s := by
  by_cases hc : c ≠ incoming.chat_id
  · simp [restMergeOne, hc]
  · simp [restMergeOne, hc, hfi, hg, hstored, hincoming]

/-- Claim C1, witness: the amended statement applied to the spec §8
scenario messages. -/
theorem C1_witness :
    restMergeOne "c1" [storedFinal] staleInProgress = [storedFinal] :=
  C1_rest_no_regression "c1" [storedFinal] 0 storedFinal staleInProgress
    (by decide) (by decide) (by decide) (by decide)

/-- Claim C2, counterexample: the claim asserts that a provisional user
message is inserted into the store before the REST POST resolves, but
`usePostMessage` declares no `onMutate`, and neither `handleSubmit` nor any
other caller writes to the message cache before the response settles: from an
empty cache, the cache observed while the request is in flight is still
empty — no provisional message exists. -/
theorem C2_counterexample :
    (submitMessage "c1" [] RestOutcome.fail).storeDuringRequest = []
    ∧ (submitMessage "c1" [] (RestOutcome.ok [storedFinal])).storeDuringRequest
      = [] := by
  exact ⟨rfl, rfl⟩

/-- Claim C2, amended: no provisional message is ever inserted (the store
during the request equals the store at submit time); on REST success the
returned messages are merged per-message via `restMergeAll` (which never
drops an existing entry, hence is not a `replaceAll`); on REST failure the
snapshot-restore branch of `onError` is dead — the mutation context is
always absent since no `onMutate` is declared — so the store is simply left
unchanged, and the error is surfaced (toast and rejected promise). -/
theorem C2_submit_pipeline (c : String) (store data : List ChatMessage) :
    (∀ o : RestOutcome, (submitMessage c store o).storeDuringRequest = store)
    ∧ (submitMessage c store (.ok data)).storeAfterSettle
      = restMergeAll c store data
    ∧ store.length ≤ (restMergeAll c store data).length
    ∧ (submitMessage c store .fail).storeAfterSettle = store
    ∧ (submitMessage c store .fail).errorShown = true := by
  refine ⟨?_, rfl, length_le_restMergeAll c data store, rfl, rfl⟩
  intro o
  cases o <;> rfl

/-- Claim C7: `snapshot` events replace the whole cached list with the
event's data (a full swap independent of the previous store), `message`
events go through `sseUpsert`, and `heartbeat` events and events with an
unrecognized `type` leave the store unchanged; no event touches the rest of
the hook state. -/
theorem C7_stream_event_dispatch (s0 : StreamHookState)
    (store data : List ChatMessage) (m : ChatMessage) (ts t : String)
    (ev : Option StreamEventKind) :
    (onMessage s0 store (some (.snapshot (some data)))).2 = data
    ∧ (onMessage s0 store (some (.message (some m)))).2 = sseUpsert store m
    ∧ (onMessage s0 store (some (.heartbeat ts))).2 = store
    ∧ (onMessage s0 store (some (.other t))).2 = store
    ∧ (onMessage s0 store ev).1 = s0 := by
  refine ⟨rfl, rfl, rfl, rfl, ?_⟩
  cases ev <;> rfl

/-- Claim C8: a stream event whose data fails to parse (`parsed = none`,
the `catch` branch of `eventSource.onmessage`) leaves the cached message
list untouched and does not change any hook state — in particular the
connection is not closed for this reason. -/
theorem C8_malformed_event_dropped (s0 : StreamHookState)
    (store : List ChatMessage) :
    onMessage s0 store none = (s0, store)
    ∧ (onMessage s0 store none).1.connOpen = s0.connOpen := ⟨rfl, rfl⟩

/-- Claim C9: the `message`-event upsert is idempotent on both merge paths
(SSE handler and REST post-message merge), and when the store holds at most
one entry for the message's id, a single application leaves exactly one
entry for that id — no duplicate. -/
theorem C9_upsert_idempotent (s : List ChatMessage) (m : ChatMessage)
    (c : String) :
    sseUpsert (sseUpsert s m) m = sseUpsert s m
    ∧ restMergeOne c (restMergeOne c s m) m = restMergeOne c s m
    ∧ (List.countP (fun x => x.uuid == m.uuid) s ≤ 1 →
        List.countP (fun x => x.uuid == m.uuid) (sseUpsert s m) = 1) := by
  refine ⟨sseUpsert_idem s m, restMergeOne_idem c s m, ?_⟩
  intro hcount
  cases hfi : findIndex (fun msg => msg.uuid == m.uuid) s with
  | some i =>
    obtain ⟨x, hx, hpx⟩ := findIndex_some_getElem? _ s i hfi
    have hxmem : x ∈ s := List.getElem?_mem hx
    have hpos : 0 < List.countP (fun x => x.uuid == m.uuid) s :=
      List.countP_pos_iff.mpr ⟨x, hxmem, hpx⟩
    have hone : List.countP (fun x => x.uuid == m.uuid) s = 1 := by omega
    have hset := countP_set_getElem? (fun x => x.uuid == m.uuid) s i m x hx
    rw [show sseUpsert s m = s.set i m from by simp [sseUpsert, hfi]]
    simp only [hpx, beq_self_eq_true, if_true] at hset
    omega
  | none =>
    have hnone := (findIndex_eq_none_iff
      (fun msg => msg.uuid == m.uuid) s).mp hfi
    have hzero : List.countP (fun x => x.uuid == m.uuid) s = 0 :=
      List.countP_eq_zero.mpr (by intro a ha; simp [hnone a ha])
    rw [show sseUpsert s m = s ++ [m] from by simp [sseUpsert, hfi]]
    simp [List.countP_append, hzero, List.countP_cons]

/-- Claim C9, witness: the idempotence theorem applied to the spec §8
scenario, with its single-entry hypothesis discharged concretely. -/
theorem C9_witness :
    List.countP (fun x => x.uuid == staleInProgress.uuid)
      (sseUpsert [storedFinal] staleInProgress) = 1 :=
  (C9_upsert_idempotent [storedFinal] staleInProgress "c1").2.2 (by decide)

/-- Claim C10: the REST post-message merge skips every returned message
whose `chat_id` differs from the conversation the mutation was created for,
so each entry of the merged list either was already present or belongs to
that conversation — a submit against conversation A can never insert another
conversation's message into A's list. -/
theorem C10_chat_id_isolation (c : String) (s data : List ChatMessage) :
    (∀ m : ChatMessage, m.chat_id ≠ c → restMergeOne c s m = s)
    ∧ ∀ x ∈ restMergeAll c s data, x ∈ s ∨ x.chat_id = c := by
  constructor
  · intro m hm
    have hc : c ≠ m.chat_id := fun h => hm h.symm
    simp [restMergeOne, hc]
  · intro x hx
    exact mem_restMergeAll c data s x hx

/-- Claim C10, witness: a message for conversation `c2` returned to a
mutation created for `c1` is skipped, and every member of the merged list
was already present or belongs to `c1`. -/
theorem C10_witness :
    restMergeOne "c1" [storedFinal] otherChatMsg = [storedFinal]
    ∧ (storedFinal ∈ [storedFinal] ∨ storedFinal.chat_id = "c1") :=
  ⟨(C10_chat_id_isolation "c1" [storedFinal] [otherChatMsg]).1 otherChatMsg
    (by decide),
   (C10_chat_id_isolation "c1" [storedFinal] [otherChatMsg]).2 storedFinal
    (by decide)⟩

/-- `n` `failed` events from the `EventSource` of generation `g`, delivered
through the platform's dispatch rule. -/
def deliverFailures (s : StreamHookState) (g : Nat) : Nat → StreamHookState
  | 0 => s
  | n + 1 => deliver (deliverFailures s g n) (.failed g)

theorem streamInv_onError (s : StreamHookState) (h : streamInv s) :
    streamInv (onError s) := by
  obtain ⟨h1, h2⟩ := h
  simp only [onError]
  by_cases hth : MAX_CONSECUTIVE_FAILURES ≤ s.failureCount + 1
  · rw [if_pos hth]
    refine ⟨?_, fun _ => rfl⟩
    by_cases hz : s.pendingTimers = 0
    · simp [hz]
    · simpa [hz] using h1
  · rw [if_neg hth]
    exact ⟨h1, h2⟩

theorem streamInv_onOpen (s : StreamHookState) (h : streamInv s) :
    streamInv (onOpen s) := by
  refine ⟨h.1, ?_⟩
  intro hfa
  simp [onOpen] at hfa

theorem streamInv_onCooldown (s : StreamHookState) (h : streamInv s) :
    streamInv (onCooldown s) := by
  obtain ⟨h1, h2⟩ := h
  unfold onCooldown
  by_cases hz : s.pendingTimers ≠ 0
  · rw [if_pos hz]
    by_cases hfa : s.fallbackActive = true
    · rw [if_pos hfa]
      refine ⟨?_, ?_⟩
      · show s.pendingTimers - 1 ≤ 1
        omega
      · intro hf
        simp at hf
    · rw [if_neg hfa]
      refine ⟨?_, ?_⟩
      · show s.pendingTimers - 1 ≤ 1
        omega
      · intro hf
        exact h2 hf
  · rw [if_neg hz]
    exact ⟨h1, h2⟩

theorem streamInv_deliver (s : StreamHookState) (e : StreamEv)
    (h : streamInv s) : streamInv (deliver s e) := by
  cases e with
  | failed g =>
    simp only [deliver]
    by_cases hgd : s.connOpen = true ∧ g = s.generation
    · rw [if_pos hgd]
      exact streamInv_onError s h
    · rw [if_neg hgd]
      exact h
  | connected g =>
    simp only [deliver]
    by_cases hgd : s.connOpen = true ∧ g = s.generation
    · rw [if_pos hgd]
      exact streamInv_onOpen s h
    · rw [if_neg hgd]
      exact h
  | cooldown => exact streamInv_onCooldown s h

theorem applyFailures_spec (cid : String) :
    ∀ n, 3 ≤ n →
      (applyFailures (initState cid) n).failureCount = n
      ∧ (applyFailures (initState cid) n).fallbackActive = true
      ∧ (applyFailures (initState cid) n).pendingTimers = 1
      ∧ (applyFailures (initState cid) n).connOpen = false := by
  intro n hn
  induction n with
  | zero => omega
  | succ k ih =>
    by_cases hk : 3 ≤ k
    · obtain ⟨hfc, hfa, hpt, hco⟩ := ih hk
      have hth : MAX_CONSECUTIVE_FAILURES
          ≤ (applyFailures (initState cid) k).failureCount + 1 := by
        rw [hfc]
        simp only [MAX_CONSECUTIVE_FAILURES]
        omega
      simp only [applyFailures, onError]
      rw [if_pos hth]
      refine ⟨by simp [hfc], rfl, ?_, rfl⟩
      simp [hpt]
    · have hk3 : k = 2 := by omega
      subst hk3
      simp [applyFailures, onError, initState, MAX_CONSECUTIVE_FAILURES]

/-- Claim C3: starting from a freshly connected stream with failure counter
zero, one or two `failed` events do not activate the fallback; the third
does, and in the same `onerror` step the connection is closed and a single
cool-down timer scheduled — so at the first instant the polling gate
(`shouldRefetch`) turns on, the connection is already closed, and no poll
can have been issued earlier because the gate was off.  A `connected` event
(`onopen`) resets the failure counter to zero at any point. -/
theorem C3_fallback_trip (cid : String) :
    (deliverFailures (initState cid) 0 1).fallbackActive = false
    ∧ (deliverFailures (initState cid) 0 2).fallbackActive = false
    ∧ (deliverFailures (initState cid) 0 3).fallbackActive = true
    ∧ (deliverFailures (initState cid) 0 3).connOpen = false
    ∧ (deliverFailures (initState cid) 0 3).pendingTimers = 1
    ∧ shouldRefetch (deliverFailures (initState cid) 0 2).fallbackActive
      = none
    ∧ shouldRefetch (deliverFailures (initState cid) 0 3).fallbackActive
      = some 5000
    ∧ ∀ s : StreamHookState,
        (onOpen s).failureCount = 0 ∧ (onOpen s).fallbackActive = false := by
  exact ⟨rfl, rfl, rfl, rfl, rfl, rfl, rfl, fun s => ⟨rfl, rfl⟩⟩

/-- Claim C4, counterexample: the claim says polling stops only once a newly
opened stream connects successfully, but in the code the cool-down timer
callback itself clears `isPollingFallbackActive`: after the fallback has
tripped, delivering the `cooldown` event alone — no `connected` event ever
occurs — already turns the polling gate off (`shouldRefetch` becomes
`none`) while the fresh connection has merely been opened. -/
theorem C4_counterexample :
    (deliverFailures (initState "c1") 0 3).fallbackActive = true
    ∧ (deliver (deliverFailures (initState "c1") 0 3)
        StreamEv.cooldown).fallbackActive = false
    ∧ (deliver (deliverFailures (initState "c1") 0 3)
        StreamEv.cooldown).connOpen = true
    ∧ shouldRefetch (deliver (deliverFailures (initState "c1") 0 3)
        StreamEv.cooldown).fallbackActive = none :=
  ⟨rfl, rfl, rfl, rfl⟩

/-- Claim C4, amended: in the fallback state REST polling runs at the
5000 ms interval while the fallback flag is set; when the 30-second
cool-down timer elapses, the failure counter resets, the fallback flag
clears — so polling stops at that moment, before the newly opened stream
connection has connected — and a fresh stream connection is opened. -/
theorem C4_cooldown_elapse (s : StreamHookState)
    (hp : s.pendingTimers ≠ 0) (hf : s.fallbackActive = true) :
    shouldRefetch s.fallbackActive = some 5000
    ∧ (onCooldown s).failureCount = 0
    ∧ (onCooldown s).fallbackActive = false
    ∧ (onCooldown s).connOpen = true
    ∧ (onCooldown s).generation = s.generation + 1
    ∧ (onCooldown s).pendingTimers = s.pendingTimers - 1
    ∧ shouldRefetch (onCooldown s).fallbackActive = none
    ∧ POLLING_BACKOFF_MS = 30000 := by
  unfold onCooldown
  rw [if_pos hp, if_pos hf]
  exact ⟨by rw [hf]; rfl, rfl, rfl, rfl, rfl, rfl, rfl, rfl⟩

/-- Claim C4, witness: the amended statement applied to the state reached
after three delivered failures. -/
theorem C4_witness :
    (onCooldown (deliverFailures (initState "c1") 0 3)).fallbackActive = false
    ∧ (onCooldown (deliverFailures (initState "c1") 0 3)).connOpen = true
    ∧ (onCooldown (deliverFailures (initState "c1") 0 3)).failureCount = 0 :=
  ⟨(C4_cooldown_elapse _ (by decide) (by decide)).2.2.1,
   (C4_cooldown_elapse _ (by decide) (by decide)).2.2.2.1,
   (C4_cooldown_elapse _ (by decide) (by decide)).2.1⟩

/-- Claim C5: for every `n ≥ 3`, after `n` consecutive invocations of the
`onerror` handler (exactly as the repository's test fires ten of them on one
mock connection) the fallback flag is set and stays set, exactly one
cool-down timer is pending (the `if (!retryTimeoutRef.current)` guard
prevents further scheduling), and the connection is closed.  Moreover the
per-conversation invariant — at most one pending timer, and fallback active
implies no open connection — holds initially and is preserved by every
delivered event. -/
theorem C5_fallback_latched (cid : String) (n : Nat) (hn : 3 ≤ n) :
    ((applyFailures (initState cid) n).fallbackActive = true
      ∧ (applyFailures (initState cid) n).pendingTimers = 1
      ∧ (applyFailures (initState cid) n).connOpen = false)
    ∧ (∀ s : StreamHookState, ∀ e : StreamEv,
        streamInv s → streamInv (deliver s e))
    ∧ streamInv (initState cid) := by
  obtain ⟨hfc, hfa, hpt, hco⟩ := applyFailures_spec cid n hn
  refine ⟨⟨hfa, hpt, hco⟩, fun s e h => streamInv_deliver s e h,
    Nat.zero_le 1, ?_⟩
  intro hfal
  simp [initState] at hfal

/-- Claim C5, witness: ten raw failures on one connection, as in the
repository's test, plus an invariant step at a concrete state. -/
theorem C5_witness :
    (applyFailures (initState "c1") 10).fallbackActive = true
    ∧ (applyFailures (initState "c1") 10).pendingTimers = 1
    ∧ streamInv (deliver (initState "c1") (StreamEv.failed 0)) :=
  ⟨((C5_fallback_latched "c1" 10 (by decide)).1).1,
   ((C5_fallback_latched "c1" 10 (by decide)).1).2.1,
   (C5_fallback_latched "c1" 10 (by decide)).2.1
     (initState "c1") (StreamEv.failed 0) (by decide)⟩

/-- Claim C6: switching the active conversation while its stream is open
closes the old connection exactly once (the effect cleanup's single
`close()` call), resets the failure counter, the fallback flag and the
pending timer, and a `failed` event from the old connection's generation is
never delivered to the new state — the old `EventSource` is closed and its
handlers belong to the torn-down effect — so it cannot be counted against
the new conversation's failure counter. -/
theorem C6_switch_isolation (s : StreamHookState) (newChatId : String)
    (hopen : s.connOpen = true) :
    (switchChat s newChatId).2 = 1
    ∧ (switchChat s newChatId).1.chatId = newChatId
    ∧ (switchChat s newChatId).1.failureCount = 0
    ∧ (switchChat s newChatId).1.fallbackActive = false
    ∧ (switchChat s newChatId).1.pendingTimers = 0
    ∧ deliver (switchChat s newChatId).1 (.failed s.generation)
      = (switchChat s newChatId).1 := by
  refine ⟨by simp [switchChat, hopen], rfl, rfl, rfl, rfl, ?_⟩
  simp only [switchChat, deliver]
  rw [if_neg]
  rintro ⟨-, hg⟩
  have hg2 : s.generation = s.generation + 1 := hg
  omega

/-- Claim C6, witness: the switch theorem applied to a concrete open
connection for conversation `a`, switching to conversation `b`. -/
theorem C6_witness :
    (switchChat (initState "a") "b").2 = 1
    ∧ deliver (switchChat (initState "a") "b").1
        (StreamEv.failed (initState "a").generation)
      = (switchChat (initState "a") "b").1 :=
  ⟨(C6_switch_isolation (initState "a") "b" rfl).1,
   (C6_switch_isolation (initState "a") "b" rfl).2.2.2.2.2⟩

end ChatSync
